import Mathlib

/-!
Verification development for the backup/restore subsystem of the box
management server (Express routes in server/routes, SQLite access in
server/db, storage layer in server/storage).

The file-system state the handlers mutate is embedded as a finite list of
(path, content) files plus a list of explicitly created directories; a path
is its list of components relative to the process working directory.
The two HTTP handlers `POST /api/backup/full` and `POST /api/restore/full`
are embedded as pure functions over that state which also produce the
sequence of observable steps (the trace) and the HTTP-level outcome.
-/

/-- A file-system path, as its components relative to the process cwd. -/
abbrev FsPath := List String

/-- Boolean path-prefix test: `isPref p q` is true when `q` lies at or below
`p` in the directory tree. -/
def isPref : FsPath → FsPath → Bool
  | [], _ => true
  | _ :: _, [] => false
  | a :: as, b :: bs => a == b && isPref as bs

/-- The file-system state: regular files with their contents, and the
directories that were explicitly created (directories also exist implicitly
as ancestors of files and of created directories). -/
structure FS where
  files : List (FsPath × String)
  dirs : List FsPath
deriving DecidableEq

/-- First match wins: a write prepends, so this is the latest content. -/
def findFile : List (FsPath × String) → FsPath → Option String
  | [], _ => none
  | (q, c) :: rest, p => if q = p then some c else findFile rest p

/-- `fs.statSync(p).isFile()`-style test. -/
def isFileB (fs : FS) (p : FsPath) : Bool :=
  (findFile fs.files p).isSome

/-- A directory exists at `p`: it was created, or it is an ancestor of a
created directory or of a file. -/
def isDirB (fs : FS) (p : FsPath) : Bool :=
  fs.dirs.any (fun d => isPref p d) ||
    fs.files.any (fun f => isPref p f.1 && !(f.1 == p))

/-- `fs.existsSync(p)`: a file or a directory is present at `p`. -/
def existsB (fs : FS) (p : FsPath) : Bool :=
  isFileB fs p || isDirB fs p

/-- `fs.mkdirSync(p, { recursive: true })`. -/
def mkdirRec (fs : FS) (p : FsPath) : FS :=
  { fs with dirs := p :: fs.dirs }

/-- `fs.writeFileSync`/`createWriteStream` + pipe: latest write shadows. -/
def writeFile (fs : FS) (p : FsPath) (c : String) : FS :=
  { fs with files := (p, c) :: fs.files }

/-- Drop every record of the file at `q`. -/
def removeFile : List (FsPath × String) → FsPath → List (FsPath × String)
  | [], _ => []
  | f :: rest, q => if f.1 = q then removeFile rest q else f :: removeFile rest q

/-- Drop every file record at or below `r`. -/
def removeUnder : List (FsPath × String) → FsPath → List (FsPath × String)
  | [], _ => []
  | f :: rest, r => if isPref r f.1 then removeUnder rest r else f :: removeUnder rest r

/-- Drop every directory record at or below `r`. -/
def removeDirsUnder : List FsPath → FsPath → List FsPath
  | [], _ => []
  | d :: rest, r => if isPref r d then removeDirsUnder rest r else d :: removeDirsUnder rest r

/-- `fs.rmSync(p, { force: true })` on a regular file. -/
def rmFile (fs : FS) (p : FsPath) : FS :=
  { fs with files := removeFile fs.files p }

/-- `fs.rmSync(p, { recursive: true, force: true })`: everything at or
below `p` disappears. -/
def rmRec (fs : FS) (p : FsPath) : FS :=
  { files := removeUnder fs.files p,
    dirs := removeDirsUnder fs.dirs p }

/-- `fs.copyFileSync(src, dst)` (no-op when the source file is absent; the
handlers always guard the call with an existence check). -/
def copyFile (fs : FS) (src dst : FsPath) : FS :=
  match findFile fs.files src with
  | some c => writeFile fs dst c
  | none => fs

/-- Path of `q` re-rooted from `src` to `dst`. -/
def rebase (src dst q : FsPath) : FsPath :=
  dst ++ q.drop src.length

/-- `fs.cpSync(src, dst, { recursive: true })`. -/
def cpRec (fs : FS) (src dst : FsPath) : FS :=
  { files :=
      ((fs.files.filter (fun f => isPref src f.1)).map
        (fun f => (rebase src dst f.1, f.2))) ++ fs.files,
    dirs := dst :: fs.dirs }

/-- First-occurrence deduplication with an accumulator of seen names. -/
def dedupAux : List String → List String → List String
  | [], _ => []
  | s :: rest, seen =>
    if seen.contains s then dedupAux rest seen else s :: dedupAux rest (s :: seen)

def dedupStr (l : List String) : List String := dedupAux l []

/-- `fs.readdirSync(p)`: the immediate child names under `p`. -/
def childNames (fs : FS) (p : FsPath) : List String :=
  dedupStr
    ((fs.files.filterMap
        (fun f => if isPref p f.1 && !(f.1 == p) then (f.1.drop p.length).head? else none)) ++
      (fs.dirs.filterMap
        (fun d => if isPref p d && !(d == p) then (d.drop p.length).head? else none)))

/- ### Node path.join semantics
`path.join(a, b)` concatenates and then normalizes: empty and `.` segments
vanish and `..` pops the previous segment (at an absolute root a surplus
`..` is dropped). -/

/-- Normalization step over the segments still to consume. -/
def normComps : FsPath → List String → FsPath
  | stack, [] => stack
  | stack, c :: rest =>
    if c = "" ∨ c = "." then normComps stack rest
    else if c = ".." then normComps stack.dropLast rest
    else normComps (stack ++ [c]) rest

/-- Split a ZIP entry name at `/` into segments. -/
def splitSlashAux : List Char → List Char → List String
  | [], acc => [String.mk acc.reverse]
  | c :: rest, acc =>
    if c = '/' then String.mk acc.reverse :: splitSlashAux rest []
    else splitSlashAux rest (c :: acc)

def splitSlash (s : String) : List String :=
  splitSlashAux s.toList []

/-- `path.join(base, name)` with `base` an already-normalized path. -/
def joinPath (base : FsPath) (name : String) : FsPath :=
  normComps base (splitSlash name)

/- ### Basic lemmas about `isPref` and the file-system primitives -/

theorem isPref_iff_append (p q : FsPath) : isPref p q = true ↔ ∃ r, q = p ++ r := by
  induction p generalizing q with
  | nil => simp [isPref]
  | cons a as ih =>
    cases q with
    | nil => simp [isPref]
    | cons b bs =>
      simp only [isPref, Bool.and_eq_true, beq_iff_eq, ih]
      constructor
      · rintro ⟨rfl, r, rfl⟩; exact ⟨r, rfl⟩
      · rintro ⟨r, h⟩
        cases h
        exact ⟨rfl, r, rfl⟩

theorem isPref_refl (p : FsPath) : isPref p p = true := by
  rw [isPref_iff_append]; exact ⟨[], by simp⟩

theorem isPref_append (p : FsPath) (r : FsPath) : isPref p (p ++ r) = true := by
  rw [isPref_iff_append]; exact ⟨r, rfl⟩

theorem isPref_extend {b s : FsPath} (h : isPref b s = true) (r : FsPath) :
    isPref b (s ++ r) = true := by
  rw [isPref_iff_append] at h ⊢
  obtain ⟨u, rfl⟩ := h
  exact ⟨u ++ r, by simp⟩

theorem isPref_of_append_left {u v p : FsPath} (h : isPref (u ++ v) p = true) :
    isPref u p = true := by
  rw [isPref_iff_append] at h ⊢
  obtain ⟨r, rfl⟩ := h
  exact ⟨v ++ r, by simp⟩

theorem findFile_removeFile (l : List (FsPath × String)) (q p : FsPath) :
    findFile (removeFile l q) p = if p = q then none else findFile l p := by
  induction l with
  | nil => simp [removeFile, findFile]
  | cons f rest ih =>
    by_cases hfq : f.1 = q
    · rw [removeFile, if_pos hfq, ih]
      by_cases hpq : p = q
      · simp [hpq]
      · have hfp : ¬ (f.1 = p) := by rw [hfq]; exact fun h => hpq h.symm
        simp [findFile, hfp, hpq]
    · rw [removeFile, if_neg hfq]
      by_cases hfp : f.1 = p
      · have hpq : ¬ (p = q) := fun h => hfq (hfp.trans h)
        simp [findFile, hfp, hpq]
      · simp [findFile, hfp, ih]

theorem findFile_rmFile (fs : FS) (q p : FsPath) :
    findFile (rmFile fs q).files p = if p = q then none else findFile fs.files p :=
  findFile_removeFile fs.files q p

theorem findFile_removeUnder (l : List (FsPath × String)) (r p : FsPath) :
    findFile (removeUnder l r) p = if isPref r p then none else findFile l p := by
  induction l with
  | nil => simp [removeUnder, findFile]
  | cons f rest ih =>
    by_cases hf : isPref r f.1
    · rw [removeUnder, if_pos hf, ih]
      by_cases hp : isPref r p
      · simp [hp]
      · have hfp : ¬ (f.1 = p) := fun h => hp (h ▸ hf)
        simp [findFile, hfp, hp]
    · rw [removeUnder, if_neg hf]
      by_cases hfp : f.1 = p
      · have hp : ¬ (isPref r p = true) := fun h => hf (hfp ▸ h)
        simp [findFile, hfp, hp]
      · simp [findFile, hfp, ih]

theorem findFile_rmRec (fs : FS) (r p : FsPath) :
    findFile (rmRec fs r).files p =
      if isPref r p then none else findFile fs.files p :=
  findFile_removeUnder fs.files r p

theorem mem_removeDirsUnder {l : List FsPath} {r d : FsPath}
    (h : d ∈ removeDirsUnder l r) : isPref r d = false := by
  induction l with
  | nil => simp [removeDirsUnder] at h
  | cons e rest ih =>
    by_cases he : isPref r e
    · rw [removeDirsUnder, if_pos he] at h
      exact ih h
    · rw [removeDirsUnder, if_neg he] at h
      rcases List.mem_cons.mp h with rfl | h
      · cases hv : isPref r d with
        | true => exact absurd hv he
        | false => rfl
      · exact ih h

/- ### ZIP extraction (restore handler, extraction promise)

`yauzl.open` is called with `{ lazyEntries: true }`, leaving
`decodeStrings` at its default `true`, so yauzl validates every entry's
fileName before emitting it: a name containing a backslash, an absolute
path (leading `/` or a drive prefix), or a `..` path segment makes yauzl
emit `'error'` instead of `'entry'`, which the handler's
`zipfile.on('error', reject)` turns into a promise rejection. An entry
that does get delivered is either a directory entry (name ending in `/`,
tested by `/\/$/`) or a file entry written at
`path.join(tempExtractPath, entry.fileName)` after creating the parent
directory. -/

/-- One archive entry: its recorded name and (for files) its content. -/
structure ZipEntry where
  name : String
  content : String
deriving DecidableEq

/-- The uploaded bytes: either undecodable, or a decoded entry list. -/
inductive ZipBytes where
  | corrupt : ZipBytes
  | entries : List ZipEntry → ZipBytes
deriving DecidableEq

/-- `s.toList.getLast? == some '/'`: the trailing-slash directory test. -/
def endsWithSlash (s : String) : Bool :=
  s.toList.getLast? == some '/'

/-- The body of one `'entry'` event (routes lines 454–473): by the time it
fires, yauzl has already validated the entry's name (see `validFileName`,
modelled in `extractLoop`). -/
def extractEntry (root : FsPath) (fs : FS) (e : ZipEntry) : FS :=
  if endsWithSlash e.name then
    mkdirRec fs (joinPath root e.name)
  else
    let fp := joinPath root e.name
    writeFile (mkdirRec fs fp.dropLast) fp e.content

/-- The writes of a run in which every delivered entry passed yauzl's name
validation. The handler's loop is `extractLoop` below, which models the
validation and reduces to this exactly when every name is valid. -/
def extractAll (fs : FS) (root : FsPath) (l : List ZipEntry) : FS :=
  l.foldl (extractEntry root) fs

/-- A `/^[a-zA-Z]:/` drive prefix. -/
def isDriveAbsolute : List Char → Bool
  | c1 :: c2 :: _ => c1.isAlpha && c2 == ':'
  | _ => false

/-- yauzl's `validateFileName`, applied to every entry before the
`'entry'` event when `decodeStrings` is `true` (the handler leaves it at
that default): a backslash anywhere, an absolute path (drive prefix or
leading `/`), or a `..` path segment is rejected. -/
def validFileName (s : String) : Bool :=
  !(s.toList.any (fun c => c == '\\')) &&
  !(isDriveAbsolute s.toList) &&
  !(s.toList.head? == some '/') &&
  !((splitSlash s).any (fun seg => seg == ".."))

/-- The extraction loop as the handler runs it: yauzl delivers entries in
order, validating each name first; the first invalid name emits `'error'`
instead of `'entry'`, rejecting the promise with the prefix already
extracted. Returns the resulting state and whether the promise resolved. -/
def extractLoop : FS → FsPath → List ZipEntry → FS × Bool
  | fs, _, [] => (fs, true)
  | fs, root, e :: rest =>
    if validFileName e.name then extractLoop (extractEntry root fs e) root rest
    else (fs, false)

theorem normComps_keeps_isPref (parts : List String) (base : FsPath) :
    ∀ stack, isPref base stack = true → ".." ∉ parts →
      isPref base (normComps stack parts) = true := by
  induction parts with
  | nil => intro stack h _; simpa [normComps] using h
  | cons c rest ih =>
    intro stack h hnd
    have hcrest : ".." ∉ rest := fun hm => hnd (List.mem_cons_of_mem _ hm)
    have hcne : ¬ (c = "..") := fun hc => hnd (hc ▸ List.mem_cons_self c rest)
    by_cases hskip : c = "" ∨ c = "."
    · rw [normComps, if_pos hskip]
      exact ih stack h hcrest
    · rw [normComps, if_neg hskip, if_neg hcne]
      exact ih (stack ++ [c]) (isPref_extend h [c]) hcrest

theorem joinPath_stays_inside (root : FsPath) (nm : String)
    (h : ".." ∉ splitSlash nm) : isPref root (joinPath root nm) = true :=
  normComps_keeps_isPref (splitSlash nm) root root (isPref_refl root) h

theorem findFile_extractEntry_of_ne (root : FsPath) (fs : FS) (e : ZipEntry)
    (p : FsPath) (hne : ¬ (joinPath root e.name = p)) :
    findFile (extractEntry root fs e).files p = findFile fs.files p := by
  unfold extractEntry
  by_cases hd : endsWithSlash e.name
  · rw [if_pos hd]; rfl
  · rw [if_neg hd]
    show findFile ((joinPath root e.name, e.content) :: fs.files) p = findFile fs.files p
    rw [findFile, if_neg hne]

theorem findFile_extractAll_outside (l : List ZipEntry) (root : FsPath) (p : FsPath)
    (hout : isPref root p = false)
    (hsafe : ∀ e ∈ l, ".." ∉ splitSlash e.name) :
    ∀ fs, findFile (extractAll fs root l).files p = findFile fs.files p := by
  induction l with
  | nil => intro fs; rfl
  | cons e rest ih =>
    intro fs
    have hsr : ∀ x ∈ rest, ".." ∉ splitSlash x.name :=
      fun x hx => hsafe x (List.mem_cons_of_mem _ hx)
    have hne : ¬ (joinPath root e.name = p) := by
      intro hq
      have := joinPath_stays_inside root e.name (hsafe e (List.mem_cons_self e rest))
      rw [hq, hout] at this
      exact Bool.false_ne_true this
    show findFile (extractAll (extractEntry root fs e) root rest).files p = findFile fs.files p
    rw [ih hsr (extractEntry root fs e), findFile_extractEntry_of_ne root fs e p hne]

theorem validFileName_false_of_dotdot {s : String} (h : ".." ∈ splitSlash s) :
    validFileName s = false := by
  unfold validFileName
  have hc : (splitSlash s).any (fun seg => seg == "..") = true :=
    List.any_eq_true.mpr ⟨"..", h, by simp⟩
  rw [hc]
  simp

theorem validFileName_no_dotdot {s : String} (hv : validFileName s = true) :
    ".." ∉ splitSlash s := by
  intro hm
  have hc : validFileName s = false := validFileName_false_of_dotdot hm
  rw [hv] at hc
  exact absurd hc (by decide)

theorem extractLoop_of_valid (l : List ZipEntry) (root : FsPath)
    (hv : ∀ e ∈ l, validFileName e.name = true) :
    ∀ fs, extractLoop fs root l = (extractAll fs root l, true) := by
  induction l with
  | nil => intro fs; rfl
  | cons e rest ih =>
    intro fs
    show (if validFileName e.name = true then extractLoop (extractEntry root fs e) root rest
        else (fs, false)) = _
    rw [if_pos (hv e (List.mem_cons_self e rest))]
    exact ih (fun x hx => hv x (List.mem_cons_of_mem _ hx)) (extractEntry root fs e)

theorem mem_dirs_extractEntry {d : FsPath} (root : FsPath) (fs : FS) (e : ZipEntry)
    (h : d ∈ fs.dirs) : d ∈ (extractEntry root fs e).dirs := by
  unfold extractEntry
  by_cases hd : endsWithSlash e.name = true
  · rw [if_pos hd]
    exact List.mem_cons_of_mem _ h
  · rw [if_neg hd]
    exact List.mem_cons_of_mem _ h

theorem mem_dirs_extractLoop {d : FsPath} (l : List ZipEntry) (root : FsPath) :
    ∀ fs : FS, d ∈ fs.dirs → d ∈ (extractLoop fs root l).1.dirs := by
  induction l with
  | nil => intro fs h; exact h
  | cons e rest ih =>
    intro fs h
    by_cases hv : validFileName e.name = true
    · have hstep : extractLoop fs root (e :: rest)
          = extractLoop (extractEntry root fs e) root rest := by
        show (if validFileName e.name = true then _ else _) = _
        rw [if_pos hv]
      rw [hstep]
      exact ih (extractEntry root fs e) (mem_dirs_extractEntry root fs e h)
    · have hstep : extractLoop fs root (e :: rest) = (fs, false) := by
        show (if validFileName e.name = true then _ else _) = _
        rw [if_neg hv]
      rw [hstep]
      exact h

theorem findFile_copyFile_of_ne (fs : FS) (src dst p : FsPath) (h : ¬ (dst = p)) :
    findFile (copyFile fs src dst).files p = findFile fs.files p := by
  unfold copyFile
  cases hsrc : findFile fs.files src with
  | none => rfl
  | some c =>
    show findFile ((dst, c) :: fs.files) p = findFile fs.files p
    rw [findFile, if_neg h]

theorem findFile_append_of_no_target (caps : List (FsPath × String))
    (fl : List (FsPath × String)) (p : FsPath) (h : ∀ e ∈ caps, ¬ (e.1 = p)) :
    findFile (caps ++ fl) p = findFile fl p := by
  induction caps with
  | nil => rfl
  | cons e rest ih =>
    have hne : ¬ (e.1 = p) := h e (List.mem_cons_self e rest)
    show findFile ((e.1, e.2) :: (rest ++ fl)) p = findFile fl p
    rw [findFile, if_neg hne]
    exact ih (fun x hx => h x (List.mem_cons_of_mem _ hx))

theorem findFile_cpRec_outside (fs : FS) (src dst p : FsPath)
    (h : isPref dst p = false) :
    findFile (cpRec fs src dst).files p = findFile fs.files p := by
  unfold cpRec
  apply findFile_append_of_no_target
  intro e he hep
  rcases List.mem_map.mp he with ⟨f, _, rfl⟩
  have hpr : isPref dst p = true := by
    rw [← hep]
    exact isPref_append dst (f.1.drop src.length)
  rw [h] at hpr
  exact Bool.false_ne_true hpr

/- ### The restore handler, POST /api/restore/full -/

/-- `path.join(process.cwd(), 'data', 'boxes.db')`. -/
def dbLivePath : FsPath := ["data", "boxes.db"]

def walLivePath : FsPath := ["data", "boxes.db-wal"]

def shmLivePath : FsPath := ["data", "boxes.db-shm"]

def uploadsRoot : FsPath := ["uploads"]

/-- `path.join(process.cwd(), 'uploads', 'temp', 'extract-' + Date.now())`. -/
def stagingPath (t : String) : FsPath := ["uploads", "temp", "extract-" ++ t]

/-- Where multer stored the uploaded archive (`req.file.path`). -/
def uploadedPath (fname : String) : FsPath := ["uploads", "temp", fname]

/-- The observable steps of one restore operation, in execution order. -/
inductive REvent where
  | extracted | extractFailed | metadataRead
  | dbReplaced | walReplaced | shmReplaced
  | reconnected | storageReinit
  | uploadsCleared | uploadsReplaced
  | cleanedUp
deriving DecidableEq

/-- The handler's HTTP-level outcome. -/
inductive RResp where
  | ok | badRequest | error
deriving DecidableEq

structure RestoreRun where
  fs : FS
  resp : RResp
  trace : List REvent
deriving DecidableEq

/-- Metadata validation (routes lines 481–486): `existsSync(metadataPath)`
then `JSON.parse(readFileSync(...))`. `parseOk` abstracts which strings
`JSON.parse` accepts; a failing parse — or a directory at the metadata
path, which makes `readFileSync` throw — propagates to the handler's
catch block, encoded by `none`. -/
def metaCheck (parseOk : String → Bool) (fs : FS) (staging : FsPath) :
    Option (List REvent) :=
  if existsB fs (staging ++ ["backup-metadata.json"]) then
    match findFile fs.files (staging ++ ["backup-metadata.json"]) with
    | some c => if parseOk c then some [REvent.metadataRead] else none
    | none => none
  else some []

/-- Routes lines 499–522: ensure the data directory, remove the live
db/WAL/SHM files, copy the staged store file over the live path. -/
def dbSwapBase (fs : FS) (staging : FsPath) : FS :=
  copyFile
    (rmFile (rmFile (rmFile (mkdirRec fs ["data"]) dbLivePath) walLivePath) shmLivePath)
    (staging ++ ["data", "boxes.db"]) dbLivePath

/-- Routes lines 530–533: restore the WAL side file when staged. -/
def dbWalStep (fs : FS) (staging : FsPath) : FS × List REvent :=
  if isFileB fs (staging ++ ["data", "boxes.db-wal"]) then
    (copyFile fs (staging ++ ["data", "boxes.db-wal"]) walLivePath, [REvent.walReplaced])
  else (fs, [])

/-- Routes lines 535–538: restore the SHM side file when staged. -/
def dbShmStep (fs : FS) (staging : FsPath) : FS × List REvent :=
  if isFileB fs (staging ++ ["data", "boxes.db-shm"]) then
    (copyFile fs (staging ++ ["data", "boxes.db-shm"]) shmLivePath, [REvent.shmReplaced])
  else (fs, [])

/-- Database replacement (routes lines 494–547): if the staged store file
exists, remove the live db/WAL/SHM files, copy the staged ones in, then
`reconnectDatabase()` and `storage.reinitialize()`. Skipped silently when
the staged store file is absent. -/
def dbRestorePhase (fs : FS) (staging : FsPath) : FS × List REvent :=
  if isFileB fs (staging ++ ["data", "boxes.db"]) then
    ((dbShmStep (dbWalStep (dbSwapBase fs staging) staging).1 staging).1,
      REvent.dbReplaced ::
        ((dbWalStep (dbSwapBase fs staging) staging).2 ++
          (dbShmStep (dbWalStep (dbSwapBase fs staging) staging).1 staging).2 ++
          [REvent.reconnected, REvent.storageReinit]))
  else (fs, [])

/-- One iteration of the uploads-clearing loop (routes lines 556–568):
directories other than `temp` are removed recursively, `temp` is skipped,
plain files are removed. -/
def clearUploadsStep (acc : FS) (c : String) : FS :=
  if isDirB acc (uploadsRoot ++ [c]) then
    if c = "temp" then acc else rmRec acc (uploadsRoot ++ [c])
  else rmFile acc (uploadsRoot ++ [c])

/-- Routes lines 555–569: clear the live uploads directory's children. -/
def clearUploads (fs : FS) : FS :=
  if existsB fs uploadsRoot then
    (childNames fs uploadsRoot).foldl clearUploadsStep fs
  else fs

/-- One iteration of the uploads-copying loop (routes lines 572–583). -/
def copyUploadsStep (staging : FsPath) (acc : FS) (c : String) : FS :=
  if isDirB acc (staging ++ ["uploads", c]) then
    cpRec acc (staging ++ ["uploads", c]) (uploadsRoot ++ [c])
  else copyFile acc (staging ++ ["uploads", c]) (uploadsRoot ++ [c])

/-- Attachment-tree replacement (routes lines 549–584), run only when the
extracted archive has an `uploads` entry. -/
def uploadsRestorePhase (fs : FS) (staging : FsPath) : FS × List REvent :=
  if existsB fs (staging ++ ["uploads"]) then
    let fsu := clearUploads fs
    ((childNames fsu (staging ++ ["uploads"])).foldl (copyUploadsStep staging) fsu,
      [REvent.uploadsCleared, REvent.uploadsReplaced])
  else (fs, [])

/-- The handler after extraction succeeded, continued on the metadata
validation's outcome: a metadata throw reaches the catch (remove the
uploaded file only, answer 500); otherwise the db phase, the uploads
phase, the cleanup of lines 587–588 and the 200 answer run in order. -/
def restoreAfterMeta (fs2 : FS) (fname t : String) :
    Option (List REvent) → RestoreRun
  | none => ⟨rmFile fs2 (uploadedPath fname), RResp.error, [REvent.extracted]⟩
  | some mseg =>
    let db := dbRestorePhase fs2 (stagingPath t)
    let up := uploadsRestorePhase db.1 (stagingPath t)
    ⟨rmRec (rmFile up.1 (uploadedPath fname)) (stagingPath t), RResp.ok,
      REvent.extracted :: (mseg ++ db.2 ++ up.2 ++ [REvent.cleanedUp])⟩

/-- The whole `POST /api/restore/full` handler (routes lines 439–601).
`upload` is `req.file` (multer name and decoded bytes), `t` the staging
timestamp. Decoded entries run through `extractLoop`: yauzl validates
each entry name before the `'entry'` event fires, and an invalid name
(`..` segment, absolute path, backslash) emits `'error'`, rejecting the
extraction promise. On any thrown or rejected error the catch block
removes only the uploaded temp file (line 596) and answers 500; the
success path removes the uploaded file and the staging directory
(lines 587–588) and answers 200. -/
def restoreFull (parseOk : String → Bool) (fs : FS)
    (upload : Option (String × ZipBytes)) (t : String) : RestoreRun :=
  match upload with
  | none => ⟨fs, RResp.badRequest, []⟩
  | some (fname, bytes) =>
    match bytes with
    | ZipBytes.corrupt =>
      ⟨rmFile (mkdirRec fs (stagingPath t)) (uploadedPath fname), RResp.error,
        [REvent.extractFailed]⟩
    | ZipBytes.entries l =>
      if (extractLoop (mkdirRec fs (stagingPath t)) (stagingPath t) l).2 then
        restoreAfterMeta (extractLoop (mkdirRec fs (stagingPath t)) (stagingPath t) l).1
          fname t
          (metaCheck parseOk
            (extractLoop (mkdirRec fs (stagingPath t)) (stagingPath t) l).1
            (stagingPath t))
      else
        ⟨rmFile (extractLoop (mkdirRec fs (stagingPath t)) (stagingPath t) l).1
            (uploadedPath fname),
          RResp.error, [REvent.extractFailed]⟩

/- ### The backup handler, POST /api/backup/full -/

/-- An archive entry's content: file bytes, or the metadata manifest the
handler builds (the JSON serialization itself is kept abstract; the
manifest's three fields are what matter). -/
inductive BContent where
  | data (s : String)
  | meta (created version typ : String)
deriving DecidableEq

/-- The observable steps of one backup operation, in execution order. -/
inductive BEvent where
  | checkpoint (ok : Bool)
  | fileAppended (p : FsPath)
  | metaAppended
  | finalized
deriving DecidableEq

structure BackupRun where
  filename : String
  entries : List (FsPath × BContent)
  trace : List BEvent
  resp : RResp
deriving DecidableEq

/-- The character replacement of `replace(/[:.]/g, '-')` (routes line 327). -/
def replColonDot (c : Char) : Char :=
  if c = ':' ∨ c = '.' then '-' else c

/-- `new Date().toISOString().replace(/[:.]/g, '-').slice(0, -5)`. -/
def tsForFilename (s : String) : String :=
  String.mk ((s.toList.map replColonDot).take (s.toList.length - 5))

/-- `` `box-management-backup-${timestamp}.zip` `` (routes line 328). -/
def backupFileName (now : String) : String :=
  "box-management-backup-" ++ tsForFilename now ++ ".zip"

def fileContent (fs : FS) (p : FsPath) : String :=
  (findFile fs.files p).getD ""

/-- Every file at or below `root` in record order.
`archive.directory(uploadsPath, 'uploads')` stores each file under
`uploads/<relative path>`, which for `root = uploads` is its own
cwd-relative path. -/
def filesUnder (fs : FS) (root : FsPath) : List (FsPath × String) :=
  fs.files.filter (fun f => isPref root f.1)

/-- The on-disk state after the checkpoint block: `merge`d when the pragma
succeeded, untouched when it threw. -/
def postCheckpoint (merge : FS → FS) (ckOk : Bool) (fs : FS) : FS :=
  if ckOk then merge fs else fs

/-- Routes lines 367–391: the db file and, when still present, its WAL and
SHM side files are appended (archive names `data/boxes.db` etc. coincide
with the cwd-relative live paths); when the db file is absent the branch
only logs and appends nothing. -/
def backupDbEntries (fs1 : FS) : List (FsPath × BContent) × List BEvent :=
  if isFileB fs1 dbLivePath then
    ((dbLivePath, BContent.data (fileContent fs1 dbLivePath)) ::
        ((if isFileB fs1 walLivePath then
            [(walLivePath, BContent.data (fileContent fs1 walLivePath))] else []) ++
         (if isFileB fs1 shmLivePath then
            [(shmLivePath, BContent.data (fileContent fs1 shmLivePath))] else [])),
     BEvent.fileAppended dbLivePath ::
        ((if isFileB fs1 walLivePath then [BEvent.fileAppended walLivePath] else []) ++
         (if isFileB fs1 shmLivePath then [BEvent.fileAppended shmLivePath] else [])))
  else ([], [])

/-- Routes lines 393–400: `archive.directory(uploadsPath, 'uploads')`. -/
def backupUpEntries (fs1 : FS) : List (FsPath × BContent) × List BEvent :=
  if existsB fs1 uploadsRoot then
    ((filesUnder fs1 uploadsRoot).map (fun f => (f.1, BContent.data f.2)),
     (filesUnder fs1 uploadsRoot).map (fun f => BEvent.fileAppended f.1))
  else ([], [])

/-- Routes lines 402–408: the manifest appended at the archive root. -/
def metaEntry (now : String) : FsPath × BContent :=
  (["backup-metadata.json"], BContent.meta now "1.0.0" "full-backup")

/-- The whole `POST /api/backup/full` handler (routes lines 325–419).
`merge` abstracts what `sqlite.pragma('wal_checkpoint(FULL)')` does to the
on-disk SQLite files; `ckOk` is whether that pragma call succeeds — its
failure is caught at line 363 and only logged. `now` is
`new Date().toISOString()`. The handler body has no uncaught throw site
once the headers are set (line 330): the missing-database branch only
logs (line 390) and the archive is finalized and streamed regardless, so
the run's HTTP outcome is the 200 stream. -/
def backupFull (merge : FS → FS) (ckOk : Bool) (fs : FS) (now : String) : BackupRun :=
  { filename := backupFileName now,
    entries := (backupDbEntries (postCheckpoint merge ckOk fs)).1 ++
      (backupUpEntries (postCheckpoint merge ckOk fs)).1 ++ [metaEntry now],
    trace := BEvent.checkpoint ckOk ::
      ((backupDbEntries (postCheckpoint merge ckOk fs)).2 ++
        (backupUpEntries (postCheckpoint merge ckOk fs)).2 ++
        [BEvent.metaAppended, BEvent.finalized]),
    resp := RResp.ok }

/- ### Schema initialization and reconnection (server/db, server/storage) -/

/-- The structured store as the data-access layer sees it: whether the
`CREATE TABLE IF NOT EXISTS` statements have run against the connection's
file, and the records that file holds. -/
structure Db where
  tablesReady : Bool
  rows : List String
deriving DecidableEq

/-- `initializeDatabase()` (server/db lines 53–85): `CREATE TABLE IF NOT
EXISTS boxes` / `items` — guarantees table presence, never touches rows. -/
def initializeDatabase (d : Db) : Db := { d with tablesReady := true }

/-- The sample record identifiers `initializeSampleData` inserts
(server/storage lines 343–436). -/
def sampleRows : List String :=
  ["location-kitchen", "location-garage", "location-office",
   "location-basement", "location-attic",
   "box-kitchen-storage", "box-garage-tools", "box-office-supplies",
   "item-stand-mixer", "item-utensil-set", "item-food-processor",
   "item-power-drill", "item-wrench-set", "item-printer-paper"]

/-- `initializeSampleData()` (server/storage lines 333–437): seeds the
sample records only when no box exists yet. -/
def initializeSampleData (d : Db) : Db :=
  if d.rows = [] then { d with rows := sampleRows } else d

/-- The `DatabaseStorage` constructor (server/storage lines 323–326):
schema initialization, then sample-data seeding. -/
def databaseStorageCtor (d : Db) : Db :=
  initializeSampleData (initializeDatabase d)

/-- `DatabaseStorage.reinitialize` (server/storage lines 329–331): runs
`initializeDatabase()` only — no seeding step. -/
def reinitializeStorage (d : Db) : Db := initializeDatabase d

/-- Modelled from the spec: `reconnectDatabase` is imported by the routes
file from server/db, but its definition is not among the sources. Spec
§4.4 specifies it: close the open handle and reopen a fresh one against
the now-replaced file, so that afterwards the in-process view of the
store is exactly the on-disk state, with no other mutation. -/
def reconnectDatabase (disk : Db) : Db := disk

/-- What the restore handler runs after replacing the store files (routes
lines 541–544): `reconnectDatabase()` then `storage.reinitialize()`. -/
def afterRestoreConnection (disk : Db) : Db :=
  reinitializeStorage (reconnectDatabase disk)

/-- Structural check for `Date.prototype.toISOString`'s fixed 24-character
format `YYYY-MM-DDTHH:mm:ss.sssZ`. -/
def isIso8601 (s : String) : Bool :=
  let cs := s.toList
  cs.length = 24 &&
  (List.range 24).all (fun i =>
    match cs.get? i with
    | none => false
    | some c =>
      if i = 4 ∨ i = 7 then c == '-'
      else if i = 10 then c == 'T'
      else if i = 13 ∨ i = 16 then c == ':'
      else if i = 19 then c == '.'
      else if i = 23 then c == 'Z'
      else c.isDigit)

/-- No `:` and no `.` anywhere in the string. -/
def hasNoColonOrDot (s : String) : Bool :=
  s.toList.all (fun c => !(c == ':') && !(c == '.'))

/- ### Concrete fixtures -/

/-- A live state: the store file, one receipt, the multer-saved upload
`u1`, and the `uploads/temp` directory. -/
def exFs1 : FS :=
  ⟨[(["data", "boxes.db"], "LIVE"), (["uploads", "receipts", "old.pdf"], "OLD"),
    (["uploads", "temp", "u1"], "ZIP")], [["uploads", "temp"]]⟩

/-- An uploaded archive holding a receipt but no `data/boxes.db`. -/
def exArchNoDb : List ZipEntry := [⟨"uploads/receipts/new.pdf", "NEW"⟩]

/-- An uploaded archive holding both the store file and a receipt. -/
def exArchFull : List ZipEntry :=
  [⟨"data/boxes.db", "NEWDB"⟩, ⟨"uploads/receipts/new.pdf", "NEW"⟩]

/-- A live state with no structured-store file. -/
def exFsNoDb : FS := ⟨[(["uploads", "receipts", "old.pdf"], "OLD")], []⟩

/-- The trivial `JSON.parse` oracle (accept everything). -/
def pAll : String → Bool := fun _ => true

/- ### C1 -/

/-- C1, counterexample. An archive that extracts successfully but holds no
`data/boxes.db` does NOT make the restore fail with an error, and live
state IS mutated before the handler returns: the run answers 200, the
attachment-tree replacement step runs, and the pre-existing receipt
`uploads/receipts/old.pdf` is gone afterwards — refuting "fails with
RestoreError(MissingStoreInArchive) and aborts before any live-state
mutation". -/
theorem restore_missing_store_counterexample :
    (restoreFull pAll exFs1 (some ("u1", ZipBytes.entries exArchNoDb)) "1").resp
        = RResp.ok ∧
    REvent.uploadsReplaced
        ∈ (restoreFull pAll exFs1 (some ("u1", ZipBytes.entries exArchNoDb)) "1").trace ∧
    findFile (restoreFull pAll exFs1
        (some ("u1", ZipBytes.entries exArchNoDb)) "1").fs.files
        ["uploads", "receipts", "old.pdf"] = none ∧
    findFile exFs1.files ["uploads", "receipts", "old.pdf"] = some "OLD" := by
  decide

/- ### C2 -/

/-- C8. What the restore handler runs after the store swap —
`reconnectDatabase()` then `storage.reinitialize()`, the latter calling
only `initializeDatabase()`'s `CREATE TABLE IF NOT EXISTS` statements —
preserves the restored rows exactly (even when the restored store is
empty, where the startup constructor's `initializeSampleData()` would have
seeded sample records), so restored records are served exactly as
restored, neither supplemented nor overwritten. -/
theorem reconnect_reruns_schema_only (disk : Db) :
    (afterRestoreConnection disk).rows = disk.rows ∧
    (afterRestoreConnection disk).tablesReady = true ∧
    (afterRestoreConnection ⟨false, []⟩).rows = [] ∧
    (databaseStorageCtor ⟨false, []⟩).rows = sampleRows ∧ sampleRows ≠ [] := by
  refine ⟨rfl, rfl, rfl, rfl, ?_⟩
  decide

/- ### Reduction lemmas for the restore pipeline -/

theorem restoreFull_extractFail_eq (parseOk : String → Bool) (fs : FS)
    (fname t : String) (l : List ZipEntry)
    (hx : (extractLoop (mkdirRec fs (stagingPath t)) (stagingPath t) l).2 = false) :
    restoreFull parseOk fs (some (fname, ZipBytes.entries l)) t =
      ⟨rmFile (extractLoop (mkdirRec fs (stagingPath t)) (stagingPath t) l).1
          (uploadedPath fname),
        RResp.error, [REvent.extractFailed]⟩ := by
  show (if (extractLoop (mkdirRec fs (stagingPath t)) (stagingPath t) l).2 = true
      then _ else _) = _
  rw [if_neg (by simp [hx])]

theorem restoreFull_metaFail_eq (parseOk : String → Bool) (fs : FS)
    (fname t : String) (l : List ZipEntry)
    (hv : ∀ e ∈ l, validFileName e.name = true)
    (hm : metaCheck parseOk (extractAll (mkdirRec fs (stagingPath t)) (stagingPath t) l)
        (stagingPath t) = none) :
    restoreFull parseOk fs (some (fname, ZipBytes.entries l)) t =
      ⟨rmFile (extractAll (mkdirRec fs (stagingPath t)) (stagingPath t) l)
          (uploadedPath fname),
        RResp.error, [REvent.extracted]⟩ := by
  show (if (extractLoop (mkdirRec fs (stagingPath t)) (stagingPath t) l).2 = true
      then _ else _) = _
  rw [extractLoop_of_valid l (stagingPath t) hv]
  show restoreAfterMeta (extractAll (mkdirRec fs (stagingPath t)) (stagingPath t) l)
      fname t
      (metaCheck parseOk (extractAll (mkdirRec fs (stagingPath t)) (stagingPath t) l)
        (stagingPath t)) = _
  rw [hm]
  rfl

theorem restoreFull_success_eq (parseOk : String → Bool) (fs : FS)
    (fname t : String) (l : List ZipEntry) (mseg : List REvent)
    (hv : ∀ e ∈ l, validFileName e.name = true)
    (hm : metaCheck parseOk (extractAll (mkdirRec fs (stagingPath t)) (stagingPath t) l)
        (stagingPath t) = some mseg) :
    restoreFull parseOk fs (some (fname, ZipBytes.entries l)) t =
      ⟨rmRec (rmFile (uploadsRestorePhase
            (dbRestorePhase (extractAll (mkdirRec fs (stagingPath t)) (stagingPath t) l)
              (stagingPath t)).1 (stagingPath t)).1 (uploadedPath fname)) (stagingPath t),
        RResp.ok,
        REvent.extracted :: (mseg ++
          (dbRestorePhase (extractAll (mkdirRec fs (stagingPath t)) (stagingPath t) l)
            (stagingPath t)).2 ++
          (uploadsRestorePhase
            (dbRestorePhase (extractAll (mkdirRec fs (stagingPath t)) (stagingPath t) l)
              (stagingPath t)).1 (stagingPath t)).2 ++ [REvent.cleanedUp])⟩ := by
  show (if (extractLoop (mkdirRec fs (stagingPath t)) (stagingPath t) l).2 = true
      then _ else _) = _
  rw [extractLoop_of_valid l (stagingPath t) hv]
  show restoreAfterMeta (extractAll (mkdirRec fs (stagingPath t)) (stagingPath t) l)
      fname t
      (metaCheck parseOk (extractAll (mkdirRec fs (stagingPath t)) (stagingPath t) l)
        (stagingPath t)) = _
  rw [hm]
  rfl

/- ### C5 -/

/-- C5. A corrupt upload makes `yauzl.open` reject; the promise rejection
reaches the catch block, which removes only the uploaded temp file and
answers 500. No live-state mutation has happened by then: the live store
file and every attachment-tree file (everything under `uploads/` outside
the `uploads/temp` staging area) read exactly as before the request, so
the caller can safely retry. -/
theorem corrupt_archive_leaves_live_state (parseOk : String → Bool) (fs : FS)
    (fname t : String) (p : FsPath)
    (hup : isPref uploadsRoot p = true)
    (htemp : isPref ["uploads", "temp"] p = false) :
    (restoreFull parseOk fs (some (fname, ZipBytes.corrupt)) t).resp = RResp.error ∧
    findFile (restoreFull parseOk fs (some (fname, ZipBytes.corrupt)) t).fs.files
        dbLivePath = findFile fs.files dbLivePath ∧
    findFile (restoreFull parseOk fs (some (fname, ZipBytes.corrupt)) t).fs.files p
        = findFile fs.files p := by
  refine ⟨rfl, ?_, ?_⟩
  · show findFile (rmFile (mkdirRec fs (stagingPath t)) (uploadedPath fname)).files
        dbLivePath = findFile fs.files dbLivePath
    rw [findFile_rmFile, if_neg (by simp [dbLivePath, uploadedPath])]
    rfl
  · show findFile (rmFile (mkdirRec fs (stagingPath t)) (uploadedPath fname)).files p
        = findFile fs.files p
    have hne : ¬ (p = uploadedPath fname) := by
      intro hpe
      have hh : isPref ["uploads", "temp"] p = true := by
        rw [hpe]
        exact isPref_append ["uploads", "temp"] [fname]
      rw [htemp] at hh
      exact Bool.false_ne_true hh
    rw [findFile_rmFile, if_neg hne]
    rfl

/-- Witness for C5 at a concrete state and attachment path. -/
theorem corrupt_archive_leaves_live_state_witness :
    (restoreFull pAll exFs1 (some ("u1", ZipBytes.corrupt)) "1").resp = RResp.error ∧
    findFile (restoreFull pAll exFs1 (some ("u1", ZipBytes.corrupt)) "1").fs.files
        dbLivePath = findFile exFs1.files dbLivePath ∧
    findFile (restoreFull pAll exFs1 (some ("u1", ZipBytes.corrupt)) "1").fs.files
        ["uploads", "receipts", "old.pdf"]
      = findFile exFs1.files ["uploads", "receipts", "old.pdf"] :=
  corrupt_archive_leaves_live_state pAll exFs1 "u1" "1"
    ["uploads", "receipts", "old.pdf"] (by decide) (by decide)

/- ### C6 -/

/-- C6, counterexample. On the corrupt-archive failure path the catch
block (routes lines 594–597) removes only the uploaded temp file; the
staging directory created at line 446 is left behind, since the
`fs.rmSync(tempExtractPath, ...)` of line 588 sits on the success path
only — refuting "removed on both success and failure paths". -/
theorem staging_cleanup_counterexample :
    (restoreFull pAll exFs1 (some ("u1", ZipBytes.corrupt)) "1").resp
        = RResp.error ∧
    stagingPath "1"
        ∈ (restoreFull pAll exFs1 (some ("u1", ZipBytes.corrupt)) "1").fs.dirs := by
  decide

/-- C6, amended. On the success path the handler removes both the
uploaded temporary file and the entire staging directory (files and
directory records) before the 200 answer; on every failure path that
reaches the catch block — corrupt archive, entry-name validation failure
during extraction, or metadata parse failure — only the uploaded
temporary file is removed and the staging directory is left behind. -/
theorem restore_cleanup_behavior (parseOk : String → Bool) (fs : FS)
    (fname t : String) (bytes : ZipBytes) :
    ((restoreFull parseOk fs (some (fname, bytes)) t).resp = RResp.ok →
      findFile (restoreFull parseOk fs (some (fname, bytes)) t).fs.files
        (uploadedPath fname) = none ∧
      (∀ p, isPref (stagingPath t) p = true →
        findFile (restoreFull parseOk fs (some (fname, bytes)) t).fs.files p = none) ∧
      ∀ d ∈ (restoreFull parseOk fs (some (fname, bytes)) t).fs.dirs,
        isPref (stagingPath t) d = false) ∧
    ((restoreFull parseOk fs (some (fname, bytes)) t).resp = RResp.error →
      stagingPath t ∈ (restoreFull parseOk fs (some (fname, bytes)) t).fs.dirs ∧
      findFile (restoreFull parseOk fs (some (fname, bytes)) t).fs.files
        (uploadedPath fname) = none) := by
  cases bytes with
  | corrupt =>
    constructor
    · intro hok
      exact RResp.noConfusion hok
    · intro _
      constructor
      · show stagingPath t ∈ stagingPath t :: fs.dirs
        exact List.mem_cons_self _ _
      · show findFile (removeFile fs.files (uploadedPath fname)) (uploadedPath fname) = none
        rw [findFile_removeFile, if_pos rfl]
  | entries l =>
    by_cases hex : (extractLoop (mkdirRec fs (stagingPath t)) (stagingPath t) l).2 = true
    · have heq : restoreFull parseOk fs (some (fname, ZipBytes.entries l)) t
          = restoreAfterMeta
              (extractLoop (mkdirRec fs (stagingPath t)) (stagingPath t) l).1 fname t
              (metaCheck parseOk
                (extractLoop (mkdirRec fs (stagingPath t)) (stagingPath t) l).1
                (stagingPath t)) := by
        show (if (extractLoop (mkdirRec fs (stagingPath t)) (stagingPath t) l).2 = true
            then _ else _) = _
        rw [if_pos hex]
      cases hm : metaCheck parseOk
          (extractLoop (mkdirRec fs (stagingPath t)) (stagingPath t) l).1
          (stagingPath t) with
      | none =>
        rw [heq, hm]
        constructor
        · intro hok
          exact RResp.noConfusion hok
        · intro _
          constructor
          · show stagingPath t
              ∈ (extractLoop (mkdirRec fs (stagingPath t)) (stagingPath t) l).1.dirs
            exact mem_dirs_extractLoop l (stagingPath t) (mkdirRec fs (stagingPath t))
              (List.mem_cons_self _ _)
          · show findFile (removeFile
                (extractLoop (mkdirRec fs (stagingPath t)) (stagingPath t) l).1.files
                (uploadedPath fname)) (uploadedPath fname) = none
            rw [findFile_removeFile, if_pos rfl]
      | some mseg =>
        rw [heq, hm]
        constructor
        · intro _
          refine ⟨?_, ?_, ?_⟩
          · show findFile (rmRec _ (stagingPath t)).files (uploadedPath fname) = none
            rw [findFile_rmRec]
            by_cases hsp : isPref (stagingPath t) (uploadedPath fname) = true
            · rw [if_pos hsp]
            · rw [if_neg hsp, findFile_rmFile, if_pos rfl]
          · intro p hp
            show findFile (rmRec _ (stagingPath t)).files p = none
            rw [findFile_rmRec, if_pos hp]
          · intro d hd
            exact mem_removeDirsUnder hd
        · intro herr
          exact RResp.noConfusion herr
    · have hx : (extractLoop (mkdirRec fs (stagingPath t)) (stagingPath t) l).2 = false := by
        cases hv : (extractLoop (mkdirRec fs (stagingPath t)) (stagingPath t) l).2 with
        | true => exact absurd hv hex
        | false => rfl
      rw [restoreFull_extractFail_eq parseOk fs fname t l hx]
      constructor
      · intro hok
        exact RResp.noConfusion hok
      · intro _
        constructor
        · show stagingPath t
            ∈ (extractLoop (mkdirRec fs (stagingPath t)) (stagingPath t) l).1.dirs
          exact mem_dirs_extractLoop l (stagingPath t) (mkdirRec fs (stagingPath t))
            (List.mem_cons_self _ _)
        · show findFile (removeFile
              (extractLoop (mkdirRec fs (stagingPath t)) (stagingPath t) l).1.files
              (uploadedPath fname)) (uploadedPath fname) = none
          rw [findFile_removeFile, if_pos rfl]

/-- Witness for the amended C6 theorem at a concrete failing run. -/
theorem restore_cleanup_behavior_witness :
    ((restoreFull pAll exFs1 (some ("u1", ZipBytes.corrupt)) "1").resp = RResp.ok →
      findFile (restoreFull pAll exFs1 (some ("u1", ZipBytes.corrupt)) "1").fs.files
        (uploadedPath "u1") = none ∧
      (∀ p, isPref (stagingPath "1") p = true →
        findFile (restoreFull pAll exFs1 (some ("u1", ZipBytes.corrupt)) "1").fs.files p
          = none) ∧
      ∀ d ∈ (restoreFull pAll exFs1 (some ("u1", ZipBytes.corrupt)) "1").fs.dirs,
        isPref (stagingPath "1") d = false) ∧
    ((restoreFull pAll exFs1 (some ("u1", ZipBytes.corrupt)) "1").resp = RResp.error →
      stagingPath "1" ∈ (restoreFull pAll exFs1 (some ("u1", ZipBytes.corrupt)) "1").fs.dirs ∧
      findFile (restoreFull pAll exFs1 (some ("u1", ZipBytes.corrupt)) "1").fs.files
        (uploadedPath "u1") = none) :=
  restore_cleanup_behavior pAll exFs1 "u1" "1" ZipBytes.corrupt

/- ### Preservation lemmas for the db and uploads phases -/

theorem isPref_child_false {c : String} {p : FsPath}
    (h : isPref uploadsRoot p = false) : isPref (uploadsRoot ++ [c]) p = false := by
  cases hv : isPref (uploadsRoot ++ [c]) p with
  | false => rfl
  | true =>
    have hu := isPref_of_append_left hv
    rw [h] at hu
    exact absurd hu Bool.false_ne_true

theorem ne_child_of_outside {c : String} {p : FsPath}
    (h : isPref uploadsRoot p = false) : ¬ (p = uploadsRoot ++ [c]) := by
  intro hpe
  have : isPref uploadsRoot p = true := by
    rw [hpe]; exact isPref_append uploadsRoot [c]
  rw [h] at this
  exact Bool.false_ne_true this

theorem clearUploadsStep_outside (acc : FS) (c : String) (p : FsPath)
    (h : isPref uploadsRoot p = false) :
    findFile (clearUploadsStep acc c).files p = findFile acc.files p := by
  unfold clearUploadsStep
  by_cases hd : isDirB acc (uploadsRoot ++ [c]) = true
  · rw [if_pos hd]
    by_cases ht : c = "temp"
    · rw [if_pos ht]
    · rw [if_neg ht, findFile_rmRec, isPref_child_false h]
      simp
  · rw [if_neg hd, findFile_rmFile, if_neg (ne_child_of_outside h)]

theorem foldl_clearUploadsStep_outside (items : List String) (p : FsPath)
    (h : isPref uploadsRoot p = false) :
    ∀ acc : FS, findFile (items.foldl clearUploadsStep acc).files p
      = findFile acc.files p := by
  induction items with
  | nil => intro acc; rfl
  | cons c rest ih =>
    intro acc
    rw [List.foldl_cons, ih (clearUploadsStep acc c), clearUploadsStep_outside acc c p h]

theorem clearUploads_outside (fs : FS) (p : FsPath)
    (h : isPref uploadsRoot p = false) :
    findFile (clearUploads fs).files p = findFile fs.files p := by
  unfold clearUploads
  by_cases he : existsB fs uploadsRoot = true
  · rw [if_pos he, foldl_clearUploadsStep_outside _ p h]
  · rw [if_neg he]

theorem copyUploadsStep_outside (staging : FsPath) (acc : FS) (c : String) (p : FsPath)
    (h : isPref uploadsRoot p = false) :
    findFile (copyUploadsStep staging acc c).files p = findFile acc.files p := by
  unfold copyUploadsStep
  by_cases hd : isDirB acc (staging ++ ["uploads", c]) = true
  · rw [if_pos hd, findFile_cpRec_outside _ _ _ _ (isPref_child_false h)]
  · rw [if_neg hd, findFile_copyFile_of_ne _ _ _ _ (fun he => ne_child_of_outside h he.symm)]

theorem foldl_copyUploadsStep_outside (staging : FsPath) (items : List String)
    (p : FsPath) (h : isPref uploadsRoot p = false) :
    ∀ acc : FS, findFile (items.foldl (copyUploadsStep staging) acc).files p
      = findFile acc.files p := by
  induction items with
  | nil => intro acc; rfl
  | cons c rest ih =>
    intro acc
    rw [List.foldl_cons, ih (copyUploadsStep staging acc c),
      copyUploadsStep_outside staging acc c p h]

theorem uploadsRestorePhase_outside (fs : FS) (staging p : FsPath)
    (h : isPref uploadsRoot p = false) :
    findFile (uploadsRestorePhase fs staging).1.files p = findFile fs.files p := by
  unfold uploadsRestorePhase
  by_cases he : existsB fs (staging ++ ["uploads"]) = true
  · rw [if_pos he]
    show findFile ((childNames (clearUploads fs) (staging ++ ["uploads"])).foldl
        (copyUploadsStep staging) (clearUploads fs)).files p = findFile fs.files p
    rw [foldl_copyUploadsStep_outside staging _ p h, clearUploads_outside fs p h]
  · rw [if_neg he]

theorem dbRestorePhase_skip (fs : FS) (staging : FsPath)
    (h : isFileB fs (staging ++ ["data", "boxes.db"]) = false) :
    dbRestorePhase fs staging = (fs, []) := by
  unfold dbRestorePhase
  rw [if_neg (by rw [h]; exact Bool.false_ne_true)]

theorem metaCheck_shape (parseOk : String → Bool) (fs : FS) (staging : FsPath)
    (m : List REvent) (h : metaCheck parseOk fs staging = some m) :
    m = [] ∨ m = [REvent.metadataRead] := by
  unfold metaCheck at h
  split at h
  · split at h
    · split at h
      · exact Or.inr (Option.some.inj h).symm
      · exact absurd h (by simp)
    · exact absurd h (by simp)
  · exact Or.inl (Option.some.inj h).symm

theorem uploadsRestorePhase_trace (fs : FS) (staging : FsPath) :
    (uploadsRestorePhase fs staging).2 = [] ∨
    (uploadsRestorePhase fs staging).2 = [REvent.uploadsCleared, REvent.uploadsReplaced] := by
  unfold uploadsRestorePhase
  by_cases he : existsB fs (staging ++ ["uploads"]) = true
  · rw [if_pos he]; exact Or.inr rfl
  · rw [if_neg he]; exact Or.inl rfl

theorem dbRestorePhase_trace (fs : FS) (staging : FsPath) :
    (dbRestorePhase fs staging).2 = [] ∨
    ∃ ws, (ws = [] ∨ ws = [REvent.walReplaced] ∨ ws = [REvent.shmReplaced] ∨
        ws = [REvent.walReplaced, REvent.shmReplaced]) ∧
      (dbRestorePhase fs staging).2 =
        REvent.dbReplaced :: (ws ++ [REvent.reconnected, REvent.storageReinit]) := by
  unfold dbRestorePhase
  by_cases h1 : isFileB fs (staging ++ ["data", "boxes.db"]) = true
  · rw [if_pos h1]
    refine Or.inr ⟨(dbWalStep (dbSwapBase fs staging) staging).2 ++
      (dbShmStep (dbWalStep (dbSwapBase fs staging) staging).1 staging).2, ?_, rfl⟩
    unfold dbWalStep dbShmStep
    by_cases h2 : isFileB (dbSwapBase fs staging) (staging ++ ["data", "boxes.db-wal"]) = true
    · rw [if_pos h2]
      dsimp only
      by_cases h3 : isFileB
          (copyFile (dbSwapBase fs staging) (staging ++ ["data", "boxes.db-wal"]) walLivePath)
          (staging ++ ["data", "boxes.db-shm"]) = true
      · rw [if_pos h3]
        exact Or.inr (Or.inr (Or.inr rfl))
      · rw [if_neg h3]
        exact Or.inr (Or.inl rfl)
    · rw [if_neg h2]
      dsimp only
      by_cases h3 : isFileB (dbSwapBase fs staging) (staging ++ ["data", "boxes.db-shm"]) = true
      · rw [if_pos h3]
        exact Or.inr (Or.inr (Or.inl rfl))
      · rw [if_neg h3]
        exact Or.inl rfl
  · rw [if_neg h1]
    exact Or.inl rfl

/-- C1, amended. When the uploaded archive extracts successfully (every
entry name passes yauzl's validation) but the extracted staging holds no
file at `data/boxes.db`, and the metadata check does not throw, the
handler does not fail: the database swap and the reconnection are silently
skipped (the live store file is unchanged and no `dbReplaced`/`reconnected`
step occurs), while the attachment-tree replacement still runs whenever
the archive carries an `uploads` directory, and the request reports
success. -/
theorem restore_missing_store_skips_db (parseOk : String → Bool) (fs : FS)
    (fname t : String) (l : List ZipEntry)
    (hv : ∀ e ∈ l, validFileName e.name = true)
    (hnodb : isFileB (extractAll (mkdirRec fs (stagingPath t)) (stagingPath t) l)
        ((stagingPath t) ++ ["data", "boxes.db"]) = false)
    (mseg : List REvent)
    (hm : metaCheck parseOk (extractAll (mkdirRec fs (stagingPath t)) (stagingPath t) l)
        (stagingPath t) = some mseg) :
    (restoreFull parseOk fs (some (fname, ZipBytes.entries l)) t).resp = RResp.ok ∧
    findFile (restoreFull parseOk fs (some (fname, ZipBytes.entries l)) t).fs.files
        dbLivePath = findFile fs.files dbLivePath ∧
    REvent.dbReplaced
        ∉ (restoreFull parseOk fs (some (fname, ZipBytes.entries l)) t).trace ∧
    REvent.reconnected
        ∉ (restoreFull parseOk fs (some (fname, ZipBytes.entries l)) t).trace := by
  have hsafe : ∀ e ∈ l, ".." ∉ splitSlash e.name :=
    fun e he => validFileName_no_dotdot (hv e he)
  have hspd : isPref (stagingPath t) dbLivePath = false := rfl
  have hupd : isPref uploadsRoot dbLivePath = false := rfl
  have hdbup : ¬ (dbLivePath = uploadedPath fname) := by
    simp [dbLivePath, uploadedPath]
  rw [restoreFull_success_eq parseOk fs fname t l mseg hv hm,
    dbRestorePhase_skip _ _ hnodb]
  dsimp only
  refine ⟨rfl, ?_, ?_, ?_⟩
  · rw [findFile_rmRec, if_neg (by simp [hspd]), findFile_rmFile, if_neg hdbup,
      uploadsRestorePhase_outside _ _ _ hupd,
      findFile_extractAll_outside l (stagingPath t) dbLivePath hspd hsafe]
    rfl
  · rcases metaCheck_shape parseOk _ _ mseg hm with rfl | rfl <;>
      rcases uploadsRestorePhase_trace
        (extractAll (mkdirRec fs (stagingPath t)) (stagingPath t) l) (stagingPath t)
        with h | h <;>
      rw [h] <;> decide
  · rcases metaCheck_shape parseOk _ _ mseg hm with rfl | rfl <;>
      rcases uploadsRestorePhase_trace
        (extractAll (mkdirRec fs (stagingPath t)) (stagingPath t) l) (stagingPath t)
        with h | h <;>
      rw [h] <;> decide

/-- Witness for the amended C1 theorem at a concrete run. -/
theorem restore_missing_store_skips_db_witness :
    (restoreFull pAll exFs1 (some ("u1", ZipBytes.entries exArchNoDb)) "1").resp
        = RResp.ok ∧
    findFile (restoreFull pAll exFs1
        (some ("u1", ZipBytes.entries exArchNoDb)) "1").fs.files dbLivePath
      = findFile exFs1.files dbLivePath ∧
    REvent.dbReplaced
        ∉ (restoreFull pAll exFs1 (some ("u1", ZipBytes.entries exArchNoDb)) "1").trace ∧
    REvent.reconnected
        ∉ (restoreFull pAll exFs1 (some ("u1", ZipBytes.entries exArchNoDb)) "1").trace :=
  restore_missing_store_skips_db pAll exFs1 "u1" "1" exArchNoDb
    (by decide) (by decide) [] (by decide)

/- ### C4 -/

/-- C4, counterexample. On a successful restore of an archive holding both
the store file and an uploads tree, the trace shows the Data-Access
Reconnector running immediately after the DATABASE files are replaced and
BEFORE the attachment tree is replaced — refuting "the Data-Access
Reconnector runs immediately after the Store Replacer has fully succeeded
(i.e., after both the structured-store files and the attachment tree have
been replaced)". -/
theorem restore_order_counterexample :
    (restoreFull pAll exFs1 (some ("u1", ZipBytes.entries exArchFull)) "1").resp
        = RResp.ok ∧
    (restoreFull pAll exFs1 (some ("u1", ZipBytes.entries exArchFull)) "1").trace =
      [REvent.extracted, REvent.dbReplaced, REvent.reconnected, REvent.storageReinit,
       REvent.uploadsCleared, REvent.uploadsReplaced, REvent.cleanedUp] ∧
    List.indexOf REvent.reconnected
        (restoreFull pAll exFs1 (some ("u1", ZipBytes.entries exArchFull)) "1").trace <
      List.indexOf REvent.uploadsReplaced
        (restoreFull pAll exFs1 (some ("u1", ZipBytes.entries exArchFull)) "1").trace := by
  decide

/-- C4, amended. Within one restore the steps do run strictly sequentially,
but in the order Extract → Validate → Replace(database) → Reconnect →
Replace(attachment tree) → Cleanup: the reconnector runs immediately after
the database files are replaced, before the attachment tree is replaced,
and before cleanup, which is last. -/
theorem restore_step_order (parseOk : String → Bool) (fs : FS)
    (fname t : String) (l : List ZipEntry) (mseg : List REvent)
    (hv : ∀ e ∈ l, validFileName e.name = true)
    (hm : metaCheck parseOk (extractAll (mkdirRec fs (stagingPath t)) (stagingPath t) l)
        (stagingPath t) = some mseg) :
    ∃ d u,
      (restoreFull parseOk fs (some (fname, ZipBytes.entries l)) t).trace =
        REvent.extracted :: (mseg ++ d ++ u ++ [REvent.cleanedUp]) ∧
      (mseg = [] ∨ mseg = [REvent.metadataRead]) ∧
      (d = [] ∨ ∃ ws, d = REvent.dbReplaced ::
          (ws ++ [REvent.reconnected, REvent.storageReinit])) ∧
      (u = [] ∨ u = [REvent.uploadsCleared, REvent.uploadsReplaced]) := by
  rw [restoreFull_success_eq parseOk fs fname t l mseg hv hm]
  refine ⟨_, _, rfl, metaCheck_shape parseOk _ _ mseg hm, ?_,
    uploadsRestorePhase_trace _ _⟩
  rcases dbRestorePhase_trace
      (extractAll (mkdirRec fs (stagingPath t)) (stagingPath t) l) (stagingPath t)
      with h | ⟨ws, _, h⟩
  · exact Or.inl h
  · exact Or.inr ⟨ws, h⟩

/-- Witness for the amended C4 theorem at a concrete run. -/
theorem restore_step_order_witness :
    ∃ d u,
      (restoreFull pAll exFs1 (some ("u1", ZipBytes.entries exArchFull)) "1").trace =
        REvent.extracted :: ([] ++ d ++ u ++ [REvent.cleanedUp]) ∧
      (([] : List REvent) = [] ∨ ([] : List REvent) = [REvent.metadataRead]) ∧
      (d = [] ∨ ∃ ws, d = REvent.dbReplaced ::
          (ws ++ [REvent.reconnected, REvent.storageReinit])) ∧
      (u = [] ∨ u = [REvent.uploadsCleared, REvent.uploadsReplaced]) :=
  restore_step_order pAll exFs1 "u1" "1" exArchFull [] (by decide) (by decide)

/- ### C3 -/

/-- A live state carrying the db with both side files present. -/
def exFsFull : FS :=
  ⟨[(["data", "boxes.db"], "LIVE"), (["data", "boxes.db-wal"], "WAL"),
    (["data", "boxes.db-shm"], "SHM"), (["uploads", "receipts", "old.pdf"], "OLD")], []⟩

/-- C3, counterexample. A backup issued while `data/boxes.db` is absent
does not fail: the handler only logs "Database file not found during
backup!" (line 390), still appends the uploads tree and the metadata
manifest, finalizes the archive and streams it as a 200 success — refuting
"fails with SnapshotError(MissingStore): the error is surfaced to the
caller and no archive is delivered as success". -/
theorem backup_missing_store_counterexample :
    (backupFull id true exFsNoDb "2025-08-15T12:34:56.789Z").resp = RResp.ok ∧
    (backupFull id true exFsNoDb "2025-08-15T12:34:56.789Z").entries =
      [(["uploads", "receipts", "old.pdf"], BContent.data "OLD"),
       (["backup-metadata.json"],
         BContent.meta "2025-08-15T12:34:56.789Z" "1.0.0" "full-backup")] := by
  decide

/-- C3, amended. When the primary store file is absent at backup time, the
handler logs but does not fail: it streams a success archive that contains
no `data/boxes.db` entry, only the uploads files (if any) and the metadata
manifest. -/
theorem backup_missing_store_still_streams (merge : FS → FS) (ckOk : Bool)
    (fs : FS) (now : String)
    (hnodb : isFileB (postCheckpoint merge ckOk fs) dbLivePath = false) :
    (backupFull merge ckOk fs now).resp = RResp.ok ∧
    (∀ e ∈ (backupFull merge ckOk fs now).entries, ¬ (e.1 = dbLivePath)) ∧
    metaEntry now ∈ (backupFull merge ckOk fs now).entries := by
  have hdb : backupDbEntries (postCheckpoint merge ckOk fs) = ([], []) := by
    unfold backupDbEntries
    rw [if_neg (by simp [hnodb])]
  refine ⟨rfl, ?_, ?_⟩
  · intro e he
    have he' : e ∈ (backupDbEntries (postCheckpoint merge ckOk fs)).1 ++
        (backupUpEntries (postCheckpoint merge ckOk fs)).1 ++ [metaEntry now] := he
    rw [hdb] at he'
    rcases List.mem_append.mp he' with h | h
    · rcases List.mem_append.mp h with h0 | hup
      · exact absurd h0 (List.not_mem_nil e)
      · unfold backupUpEntries at hup
        by_cases hex : existsB (postCheckpoint merge ckOk fs) uploadsRoot = true
        · rw [if_pos hex] at hup
          rcases List.mem_map.mp hup with ⟨f, hf, rfl⟩
          have hpref : isPref uploadsRoot f.1 = true := (List.mem_filter.mp hf).2
          intro heq
          have : isPref uploadsRoot dbLivePath = true := by
            rw [← show (f.1, BContent.data f.2).1 = f.1 from rfl, heq] at hpref
            exact heq ▸ hpref
          exact absurd this (by decide)
        · rw [if_neg hex] at hup
          exact absurd hup (List.not_mem_nil e)
    · rw [List.mem_singleton.mp h]
      simp [metaEntry, dbLivePath]
  · show metaEntry now ∈ _ ++ _ ++ [metaEntry now]
    exact List.mem_append.mpr (Or.inr (List.mem_singleton.mpr rfl))

/-- Witness for the amended C3 theorem at a concrete state. -/
theorem backup_missing_store_still_streams_witness :
    (backupFull id true exFsNoDb "2025-08-15T12:34:56.789Z").resp = RResp.ok ∧
    (∀ e ∈ (backupFull id true exFsNoDb "2025-08-15T12:34:56.789Z").entries,
      ¬ (e.1 = dbLivePath)) ∧
    metaEntry "2025-08-15T12:34:56.789Z"
      ∈ (backupFull id true exFsNoDb "2025-08-15T12:34:56.789Z").entries :=
  backup_missing_store_still_streams id true exFsNoDb "2025-08-15T12:34:56.789Z"
    (by decide)

/- ### C7 -/

/-- C7. The forced journal merge (`wal_checkpoint(FULL)`) is the first
step of the backup trace — it is executed before any file-append step, all
of which sit in the trace's tail — and WAL/SHM side files still present
after the merge are appended to the archive without making the request
fail. -/
theorem backup_checkpoint_first_and_side_files (merge : FS → FS) (ckOk : Bool)
    (fs : FS) (now : String)
    (hdb : isFileB (postCheckpoint merge ckOk fs) dbLivePath = true)
    (hwal : isFileB (postCheckpoint merge ckOk fs) walLivePath = true)
    (hshm : isFileB (postCheckpoint merge ckOk fs) shmLivePath = true) :
    (∃ rest, (backupFull merge ckOk fs now).trace = BEvent.checkpoint ckOk :: rest ∧
      ∀ q, BEvent.fileAppended q ∈ (backupFull merge ckOk fs now).trace →
        BEvent.fileAppended q ∈ rest) ∧
    (walLivePath, BContent.data (fileContent (postCheckpoint merge ckOk fs) walLivePath))
      ∈ (backupFull merge ckOk fs now).entries ∧
    (shmLivePath, BContent.data (fileContent (postCheckpoint merge ckOk fs) shmLivePath))
      ∈ (backupFull merge ckOk fs now).entries ∧
    (backupFull merge ckOk fs now).resp = RResp.ok := by
  refine ⟨⟨_, rfl, ?_⟩, ?_, ?_, rfl⟩
  · intro q hq
    rcases List.mem_cons.mp hq with h | h
    · exact absurd h (by simp)
    · exact h
  · show _ ∈ (backupDbEntries (postCheckpoint merge ckOk fs)).1 ++ _ ++ _
    apply List.mem_append.mpr
    refine Or.inl (List.mem_append.mpr (Or.inl ?_))
    unfold backupDbEntries
    rw [if_pos hdb, if_pos hwal]
    simp
  · show _ ∈ (backupDbEntries (postCheckpoint merge ckOk fs)).1 ++ _ ++ _
    apply List.mem_append.mpr
    refine Or.inl (List.mem_append.mpr (Or.inl ?_))
    unfold backupDbEntries
    rw [if_pos hdb, if_pos hshm]
    simp

/-- Witness for C7 at a concrete state with all three SQLite files. -/
theorem backup_checkpoint_first_and_side_files_witness :
    (∃ rest, (backupFull id true exFsFull "2025-08-15T12:34:56.789Z").trace
        = BEvent.checkpoint true :: rest ∧
      ∀ q, BEvent.fileAppended q
          ∈ (backupFull id true exFsFull "2025-08-15T12:34:56.789Z").trace →
        BEvent.fileAppended q ∈ rest) ∧
    (walLivePath,
        BContent.data (fileContent (postCheckpoint id true exFsFull) walLivePath))
      ∈ (backupFull id true exFsFull "2025-08-15T12:34:56.789Z").entries ∧
    (shmLivePath,
        BContent.data (fileContent (postCheckpoint id true exFsFull) shmLivePath))
      ∈ (backupFull id true exFsFull "2025-08-15T12:34:56.789Z").entries ∧
    (backupFull id true exFsFull "2025-08-15T12:34:56.789Z").resp = RResp.ok :=
  backup_checkpoint_first_and_side_files id true exFsFull "2025-08-15T12:34:56.789Z"
    (by decide) (by decide) (by decide)

/- ### C10 -/

/-- C10. A checkpoint-pragma failure is caught and only logged: the backup
continues, still answers success, and the primary db file plus any WAL/SHM
side files still on disk are all appended to the archive, keeping it
self-consistent under the spec's side-file alternative. -/
theorem backup_checkpoint_failure_not_fatal (merge : FS → FS) (fs : FS) (now : String)
    (hdb : isFileB fs dbLivePath = true) :
    (backupFull merge false fs now).resp = RResp.ok ∧
    (dbLivePath, BContent.data (fileContent fs dbLivePath))
        ∈ (backupFull merge false fs now).entries ∧
    (isFileB fs walLivePath = true →
      (walLivePath, BContent.data (fileContent fs walLivePath))
        ∈ (backupFull merge false fs now).entries) ∧
    (isFileB fs shmLivePath = true →
      (shmLivePath, BContent.data (fileContent fs shmLivePath))
        ∈ (backupFull merge false fs now).entries) := by
  have hpc : postCheckpoint merge false fs = fs := rfl
  refine ⟨rfl, ?_, ?_, ?_⟩
  · show _ ∈ (backupDbEntries (postCheckpoint merge false fs)).1 ++ _ ++ _
    rw [hpc]
    apply List.mem_append.mpr
    refine Or.inl (List.mem_append.mpr (Or.inl ?_))
    unfold backupDbEntries
    rw [if_pos hdb]
    simp
  · intro hw
    show _ ∈ (backupDbEntries (postCheckpoint merge false fs)).1 ++ _ ++ _
    rw [hpc]
    apply List.mem_append.mpr
    refine Or.inl (List.mem_append.mpr (Or.inl ?_))
    unfold backupDbEntries
    rw [if_pos hdb, if_pos hw]
    simp
  · intro hs
    show _ ∈ (backupDbEntries (postCheckpoint merge false fs)).1 ++ _ ++ _
    rw [hpc]
    apply List.mem_append.mpr
    refine Or.inl (List.mem_append.mpr (Or.inl ?_))
    unfold backupDbEntries
    rw [if_pos hdb, if_pos hs]
    simp

/-- Witness for C10 at a concrete state with all three SQLite files. -/
theorem backup_checkpoint_failure_not_fatal_witness :
    (backupFull id false exFsFull "2025-08-15T12:34:56.789Z").resp = RResp.ok ∧
    (dbLivePath, BContent.data (fileContent exFsFull dbLivePath))
        ∈ (backupFull id false exFsFull "2025-08-15T12:34:56.789Z").entries ∧
    (isFileB exFsFull walLivePath = true →
      (walLivePath, BContent.data (fileContent exFsFull walLivePath))
        ∈ (backupFull id false exFsFull "2025-08-15T12:34:56.789Z").entries) ∧
    (isFileB exFsFull shmLivePath = true →
      (shmLivePath, BContent.data (fileContent exFsFull shmLivePath))
        ∈ (backupFull id false exFsFull "2025-08-15T12:34:56.789Z").entries) :=
  backup_checkpoint_failure_not_fatal id exFsFull "2025-08-15T12:34:56.789Z" (by decide)

/- ### C9 -/

theorem tsForFilename_no_colon_dot (s : String) :
    hasNoColonOrDot (tsForFilename s) = true := by
  unfold hasNoColonOrDot tsForFilename
  rw [List.all_eq_true]
  intro c hc
  have hc2 : c ∈ s.toList.map replColonDot := List.mem_of_mem_take hc
  rcases List.mem_map.mp hc2 with ⟨a, _, rfl⟩
  unfold replColonDot
  by_cases ha : a = ':' ∨ a = '.'
  · rw [if_pos ha]; decide
  · rw [if_neg ha]
    push_neg at ha
    simp [ha.1, ha.2]

/-- C9. Every backup archive carries the manifest at the archive root
(single-component name `backup-metadata.json`) recording the request's
ISO-8601 creation time in `created` and the version string `1.0.0`; the
download filename is `box-management-backup-<timestamp>.zip` where the
timestamp is the ISO time with every colon and dot eliminated (replaced by
`-`, milliseconds dropped), so no colon or dot remains in it. -/
theorem backup_manifest_and_filename (merge : FS → FS) (ckOk : Bool)
    (fs : FS) (now : String) (hiso : isIso8601 now = true) :
    metaEntry now ∈ (backupFull merge ckOk fs now).entries ∧
    BContent.meta now "1.0.0" "full-backup" = (metaEntry now).2 ∧
    (metaEntry now).1 = ["backup-metadata.json"] ∧
    (backupFull merge ckOk fs now).filename =
      "box-management-backup-" ++ tsForFilename now ++ ".zip" ∧
    hasNoColonOrDot (tsForFilename now) = true ∧
    isIso8601 now = true := by
  refine ⟨?_, rfl, rfl, rfl, tsForFilename_no_colon_dot now, hiso⟩
  show metaEntry now ∈ _ ++ _ ++ [metaEntry now]
  exact List.mem_append.mpr (Or.inr (List.mem_singleton.mpr rfl))

/-- Witness for C9 at a concrete ISO instant. -/
theorem backup_manifest_and_filename_witness :
    metaEntry "2025-08-15T12:34:56.789Z"
      ∈ (backupFull id true exFsFull "2025-08-15T12:34:56.789Z").entries ∧
    BContent.meta "2025-08-15T12:34:56.789Z" "1.0.0" "full-backup"
      = (metaEntry "2025-08-15T12:34:56.789Z").2 ∧
    (metaEntry "2025-08-15T12:34:56.789Z").1 = ["backup-metadata.json"] ∧
    (backupFull id true exFsFull "2025-08-15T12:34:56.789Z").filename =
      "box-management-backup-" ++ tsForFilename "2025-08-15T12:34:56.789Z" ++ ".zip" ∧
    hasNoColonOrDot (tsForFilename "2025-08-15T12:34:56.789Z") = true ∧
    isIso8601 "2025-08-15T12:34:56.789Z" = true :=
  backup_manifest_and_filename id true exFsFull "2025-08-15T12:34:56.789Z" (by decide)
